import Mathlib

/-!
Verification of the TradingLatino strategy backtesting core against its
specification.  The definitions below are shallow embeddings of the Python
source: `services/JaimeMerinoIndicators.py` (signal generator) and
`backtesting.py` (position-lifecycle simulator, performance aggregation and
result serialization).  Python floats are modelled as rationals, datetimes
as explicit calendar records (serialization) or as hour counts (simulator),
and strings as lists of character codes.
-/

namespace TradingLatino

/-- Directional bias inferred from the EMA ordering
(`generate_merino_signal`, step 5). -/
inductive Bias where
  | bullish
  | bearish
  | neutral
deriving DecidableEq

/-- Signal actions produced by the generator.  The code's string values are
`LONG`, `SHORT`, `WAIT`, `WAIT_SQUEEZE` and `NO_SIGNAL` (the last one only
from the error fallback `_get_empty_signal`). -/
inductive SignalAction where
  | long
  | short
  | wait
  | waitSqueeze
  | noSignal
deriving DecidableEq

/-- Trend-strength classification of `calculate_modified_adx`
(strings `DEBIL` / `MODERADA` / `FUERTE` / `MUY_FUERTE`). -/
inductive ADXStrength where
  | debil
  | moderada
  | fuerte
  | muyFuerte
deriving DecidableEq

/-- Embedding of `JaimeMerinoSignalGenerator._determine_signal`.  The Python
function also receives `ema_55` and `volume_data`, which it never reads; the
`ema55` argument is kept for signature fidelity.  `trendValid` is the flag
`adx_data['trending'] and adx_data['strengthening']` computed by the caller. -/
def determine_signal (bias : Bias) (trendValid : Bool) (momentum : ℚ)
    (isSqueeze : Bool) (price ema11 ema55 : ℚ) : SignalAction :=
  if isSqueeze then .waitSqueeze
  else if bias = .bullish ∧ trendValid = true ∧ momentum > 0 ∧
      price > ema11 * (998/1000) then .long
  else if bias = .bearish ∧ trendValid = true ∧ momentum < 0 ∧
      price < ema11 * (1002/1000) then .short
  else .wait

/-- Decision procedure written from the specification's words (claim C3):
compressed first, then LONG, then SHORT, then WAIT when the bias is neutral
or the secondary-timeframe confirmation is absent, else NO_SIGNAL.  The
source computes no secondary-timeframe confirmation at all (the 1h frame is
never read by `_determine_signal`), so the `secondaryConfirmed` flag is kept
as an explicit parameter and is `false` in the code's configuration. -/
def determine_signal_claim (bias : Bias) (trendValid : Bool) (momentum : ℚ)
    (isSqueeze : Bool) (price ema11 ema55 : ℚ)
    (secondaryConfirmed : Bool) : SignalAction :=
  if isSqueeze then .waitSqueeze
  else if bias = .bullish ∧ trendValid = true ∧ momentum > 0 ∧
      price > ema11 * (998/1000) then .long
  else if bias = .bearish ∧ trendValid = true ∧ momentum < 0 ∧
      price < ema11 * (1002/1000) then .short
  else if bias = .neutral ∨ secondaryConfirmed = false then .wait
  else .noSignal

/-- Embedding of `JaimeMerinoSignalGenerator._calculate_confluence`.
`vpocDistancePct` is `volume_data['vpoc_distance_pct']`. -/
def calculate_confluence (bias : Bias) (trendValid : Bool) (momentum : ℚ)
    (vpocDistancePct : ℚ) : ℕ :=
  (if bias ≠ .neutral then 1 else 0) +
  (if trendValid = true then 1 else 0) +
  (if |momentum| > 1/2 then 1 else 0) +
  (if |vpocDistancePct| < 3 then 1 else 0)

/-- Embedding of `JaimeMerinoSignalGenerator._calculate_merino_strength`.
The `bias` parameter is present in the Python signature but unused.
`int(momentum_strength)` truncates a nonnegative float, i.e. takes the
floor. -/
def calculate_merino_strength (signal : SignalAction) (bias : Bias)
    (adxStrength : ADXStrength) (momentum : ℚ) (vpocDistancePct : ℚ)
    (price ema11 : ℚ) : ℤ :=
  if signal = .wait ∨ signal = .waitSqueeze then 25
  else
    let adxPoints : ℤ :=
      match adxStrength with
      | .muyFuerte => 40
      | .fuerte => 30
      | .moderada => 20
      | .debil => 0
    let momentumPoints : ℤ := ⌊min 30 (|momentum| * 10)⌋
    let distancePct : ℚ := |(price - ema11) / ema11| * 100
    let emaPoints : ℤ :=
      if distancePct < 1/2 then 20
      else if distancePct < 1 then 15
      else if distancePct < 2 then 10
      else 0
    let vpocPoints : ℤ :=
      if |vpocDistancePct| < 2 then 10
      else if |vpocDistancePct| < 5 then 5
      else 0
    min 95 (max 5 (adxPoints + momentumPoints + emaPoints + vpocPoints))

/-- Summary fields of the dictionary returned by the signal generator. -/
structure SignalSummary where
  signal : SignalAction
  signal_strength : ℤ
  bias : Bias
  confluence_score : ℕ
deriving DecidableEq

/-- Embedding of `JaimeMerinoSignalGenerator._get_empty_signal`, the error
fallback returned when signal generation raises. -/
def get_empty_signal : SignalSummary :=
  { signal := .noSignal, signal_strength := 0, bias := .neutral,
    confluence_score := 0 }

/-- Side of a simulated trade.  `_open_position` only ever creates trades
with `signal_type` equal to `LONG` or `SHORT`. -/
inductive TradeSide where
  | long
  | short
deriving DecidableEq

/-- Exit reasons written by the backtester (`_check_open_positions`,
`_close_all_positions`). -/
inductive ExitReason where
  | target1
  | target2
  | stopLoss
  | invalidation
  | timeLimit
  | endOfTest
deriving DecidableEq

/-- Embedding of the `BacktestTrade` dataclass as used by the simulator.
Prices and sizes are rationals; times are rational hour counts (the code
always converts time differences with `total_seconds() / 3600`); the
unset `exit_reason` (empty string in the code) is `none`. -/
structure Trade where
  sym : ℕ
  entryTime : ℚ
  exitTime : Option ℚ
  entryPrice : ℚ
  exitPrice : Option ℚ
  side : TradeSide
  signalStrength : ℕ
  confluenceScore : ℕ
  positionSize : ℚ
  stopLoss : ℚ
  target1 : ℚ
  target2 : ℚ
  exitReason : Option ExitReason
  pnl : ℚ
  pnlPercentage : ℚ
  maxDrawdown : ℚ
  maxProfit : ℚ
  durationHours : ℚ
  riskRewardAchieved : ℚ
deriving DecidableEq

/-- Per-bar input to the simulator: the bar's symbol, timestamp (hours),
close price, the fast EMA computed from data up to this bar, and the
signal-generator output for this bar (action, strength, confluence).
The generator is out of the simulator's state, so its per-bar output is
supplied as data. -/
structure BarEvent where
  sym : ℕ
  time : ℚ
  price : ℚ
  ema11 : ℚ
  action : SignalAction
  strength : ℕ
  confluence : ℕ
deriving DecidableEq

/-- Mutable state of `MerinoBacktester`: current capital, the
`open_positions` mapping (modelled as an association list keyed by symbol)
and the append-only closed-trade ledger `trades`. -/
structure SimState where
  capital : ℚ
  openPositions : List (ℕ × Trade)
  trades : List Trade
deriving DecidableEq

/-- Fresh state of `MerinoBacktester.__init__` / `_reset_backtest`. -/
def initState (capital : ℚ) : SimState :=
  { capital := capital, openPositions := [], trades := [] }

/-- Dictionary lookup `open_positions[symbol]` on the association list. -/
def lookupPos (sym : ℕ) : List (ℕ × Trade) → Option Trade
  | [] => none
  | p :: rest => if p.1 = sym then some p.2 else lookupPos sym rest

/-- Dictionary deletion `del open_positions[symbol]`. -/
def removePos (sym : ℕ) : List (ℕ × Trade) → List (ℕ × Trade)
  | [] => []
  | p :: rest =>
      if p.1 = sym then removePos sym rest else p :: removePos sym rest

/-- In-place mutation of the trade stored under a symbol (the excursion
updates of `_check_open_positions` mutate the stored `BacktestTrade`). -/
def updatePos (sym : ℕ) (tr : Trade) : List (ℕ × Trade) → List (ℕ × Trade)
  | [] => []
  | p :: rest =>
      if p.1 = sym then (sym, tr) :: updatePos sym tr rest
      else p :: updatePos sym tr rest

/-- Embedding of `MerinoBacktester._calculate_position_size`. -/
def calculate_position_size (capital : ℚ) (strength : ℕ) : ℚ :=
  let available := capital * (20/100)
  let pct : ℚ :=
    if 80 ≤ strength then 5/100
    else if 70 ≤ strength then 3/100
    else if 60 ≤ strength then 2/100
    else 1/100
  min (capital * pct) available

/-- Strength-tiered position percentage written from the specification's
words for claim C4: 1% at strength 50 to 59, 2% at 60 to 69, 3% at 70 to
79, 5% at 80 and above. -/
def tier_pct_claim (strength : ℕ) : ℚ :=
  if 50 ≤ strength ∧ strength ≤ 59 then 1/100
  else if 60 ≤ strength ∧ strength ≤ 69 then 2/100
  else if 70 ≤ strength ∧ strength ≤ 79 then 3/100
  else if 80 ≤ strength then 5/100
  else 0

/-- Trade record built by `MerinoBacktester._open_position`: levels are a
fixed minus 2% stop and plus 2% / plus 5% targets for LONG, mirrored for
SHORT; all exit fields start unset. -/
def make_trade (sym : ℕ) (entryTime entryPrice : ℚ) (action : SignalAction)
    (strength confluence : ℕ) (size : ℚ) : Trade :=
  if action = .long then
    { sym := sym, entryTime := entryTime, exitTime := none,
      entryPrice := entryPrice, exitPrice := none, side := .long,
      signalStrength := strength, confluenceScore := confluence,
      positionSize := size, stopLoss := entryPrice * (98/100),
      target1 := entryPrice * (102/100), target2 := entryPrice * (105/100),
      exitReason := none, pnl := 0, pnlPercentage := 0, maxDrawdown := 0,
      maxProfit := 0, durationHours := 0, riskRewardAchieved := 0 }
  else
    { sym := sym, entryTime := entryTime, exitTime := none,
      entryPrice := entryPrice, exitPrice := none, side := .short,
      signalStrength := strength, confluenceScore := confluence,
      positionSize := size, stopLoss := entryPrice * (102/100),
      target1 := entryPrice * (98/100), target2 := entryPrice * (95/100),
      exitReason := none, pnl := 0, pnlPercentage := 0, maxDrawdown := 0,
      maxProfit := 0, durationHours := 0, riskRewardAchieved := 0 }

/-- Embedding of `MerinoBacktester._open_position`: register the trade in
the open-position mapping and subtract the position size from capital. -/
def open_position (st : SimState) (ev : BarEvent) : SimState :=
  let size := calculate_position_size st.capital ev.strength
  { capital := st.capital - size,
    openPositions :=
      (ev.sym, make_trade ev.sym ev.time ev.price ev.action ev.strength
        ev.confluence size) :: st.openPositions,
    trades := st.trades }

/-- Embedding of `MerinoBacktester._check_entry_signal`: open a position
only for LONG/SHORT signals of strength at least 50. -/
def check_entry_signal (st : SimState) (ev : BarEvent) : SimState :=
  if (ev.action = .long ∨ ev.action = .short) ∧ 50 ≤ ev.strength then
    open_position st ev
  else st

/-- Exit-condition decision of `MerinoBacktester._check_open_positions`,
mirroring the code's sequencing: the stop-loss / target if-elif chain
first, then (only when no reason was set) the EMA-buffer invalidation,
then (only when no reason was set) the 48-hour time limit. -/
def check_exit_reason (side : TradeSide) (stopLoss target1 target2 : ℚ)
    (price ema11 duration : ℚ) : Option ExitReason :=
  let r1 : Option ExitReason :=
    if side = .long ∧ price ≤ stopLoss then some .stopLoss
    else if side = .short ∧ price ≥ stopLoss then some .stopLoss
    else if side = .long then
      if price ≥ target2 then some .target2
      else if price ≥ target1 then some .target1
      else none
    else if side = .short then
      if price ≤ target2 then some .target2
      else if price ≤ target1 then some .target1
      else none
    else none
  let r2 : Option ExitReason :=
    match r1 with
    | some r => some r
    | none =>
        if side = .long ∧ price < ema11 * (995/1000) then some .invalidation
        else if side = .short ∧ price > ema11 * (1005/1000) then
          some .invalidation
        else none
  match r2 with
  | some r => some r
  | none => if duration > 48 then some .timeLimit else none

/-- Close-condition precedence written from the specification's words for
claim C1: first matching condition of stop-loss, target 2, target 1,
technical invalidation, time limit, in that order, determines the exit
reason. -/
def check_exit_reason_spec (side : TradeSide)
    (stopLoss target1 target2 : ℚ) (price ema11 duration : ℚ) :
    Option ExitReason :=
  if (side = .long ∧ price ≤ stopLoss) ∨
      (side = .short ∧ price ≥ stopLoss) then some .stopLoss
  else if (side = .long ∧ price ≥ target2) ∨
      (side = .short ∧ price ≤ target2) then some .target2
  else if (side = .long ∧ price ≥ target1) ∨
      (side = .short ∧ price ≤ target1) then some .target1
  else if (side = .long ∧ price < ema11 * (995/1000)) ∨
      (side = .short ∧ price > ema11 * (1005/1000)) then some .invalidation
  else if duration > 48 then some .timeLimit
  else none

/-- Excursion tracking of `_check_open_positions`: update the running
maximum profit and maximum adverse excursion from the current price. -/
def update_excursions (tr : Trade) (price : ℚ) : Trade :=
  let currentPnl : ℚ :=
    if tr.side = .long then (price - tr.entryPrice) / tr.entryPrice
    else (tr.entryPrice - price) / tr.entryPrice
  let pnlUsd := currentPnl * tr.positionSize
  let tr1 := if pnlUsd > tr.maxProfit then { tr with maxProfit := pnlUsd }
    else tr
  if pnlUsd < -|tr1.maxDrawdown| then { tr1 with maxDrawdown := |pnlUsd| }
  else tr1

/-- Embedding of `MerinoBacktester._close_position`: finalize the trade's
exit fields, realized profit and loss, and achieved risk/reward, credit
the capital with position size plus profit, append the trade to the
ledger, and delete the symbol from the open-position mapping.  A missing
symbol leaves the state unchanged (the code catches the lookup error). -/
def close_position (st : SimState) (sym : ℕ) (exitTime exitPrice : ℚ)
    (reason : ExitReason) : SimState :=
  match lookupPos sym st.openPositions with
  | none => st
  | some tr =>
      let pnlPct : ℚ :=
        if tr.side = .long then (exitPrice - tr.entryPrice) / tr.entryPrice
        else (tr.entryPrice - exitPrice) / tr.entryPrice
      let risk : ℚ := |tr.entryPrice - tr.stopLoss| / tr.entryPrice
      let reward : ℚ := |exitPrice - tr.entryPrice| / tr.entryPrice
      let tr' : Trade :=
        { tr with
          exitTime := some exitTime,
          exitPrice := some exitPrice,
          exitReason := some reason,
          durationHours := exitTime - tr.entryTime,
          pnlPercentage := pnlPct,
          pnl := pnlPct * tr.positionSize,
          riskRewardAchieved := if risk > 0 then reward / risk else 0 }
      { capital := st.capital + tr.positionSize + tr'.pnl,
        openPositions := removePos sym st.openPositions,
        trades := st.trades ++ [tr'] }

/-- Embedding of `MerinoBacktester._check_open_positions`: when a position
is open for the bar's symbol, update its excursions, decide the exit
reason, and close the position when a reason was found. -/
def check_open_positions (st : SimState) (ev : BarEvent) : SimState :=
  match lookupPos ev.sym st.openPositions with
  | none => st
  | some tr =>
      let tr1 := update_excursions tr ev.price
      let st1 : SimState :=
        { st with openPositions := updatePos ev.sym tr1 st.openPositions }
      match check_exit_reason tr1.side tr1.stopLoss tr1.target1 tr1.target2
          ev.price ev.ema11 (ev.time - tr1.entryTime) with
      | some r => close_position st1 ev.sym ev.time ev.price r
      | none => st1

/-- Per-bar body of `_process_symbol_backtest`: first evaluate open
positions, then generate an entry signal only when the symbol is absent
from the open-position mapping. -/
def process_bar (st : SimState) (ev : BarEvent) : SimState :=
  let st1 := check_open_positions st ev
  match lookupPos ev.sym st1.openPositions with
  | some _ => st1
  | none => check_entry_signal st1 ev

/-- Key uniqueness of the open-position mapping: the Python `dict` admits
at most one entry per symbol; the association-list model keeps this as an
explicit invariant. -/
def nodupKeys (l : List (ℕ × Trade)) : Prop :=
  (l.map Prod.fst).Nodup

/-- Concrete open LONG trade used to evaluate the theorems: entered at
price 100 with the code's fixed levels (stop 98, targets 102 and 105). -/
def sampleOpenTrade : Trade :=
  { sym := 0, entryTime := 0, exitTime := none, entryPrice := 100,
    exitPrice := none, side := .long, signalStrength := 65,
    confluenceScore := 3, positionSize := 200, stopLoss := 98,
    target1 := 102, target2 := 105, exitReason := none, pnl := 0,
    pnlPercentage := 0, maxDrawdown := 0, maxProfit := 0,
    durationHours := 0, riskRewardAchieved := 0 }

/-- Concrete simulator state holding the sample trade open. -/
def sampleOpenState : SimState :=
  { capital := 9800, openPositions := [(0, sampleOpenTrade)],
    trades := [] }


/-- Bar-by-bar driver loop over a sequence of bar events. -/
def run_bars (events : List BarEvent) (st : SimState) : SimState :=
  events.foldl process_bar st

/-- Embedding of `MerinoBacktester._close_all_positions`: iterate over a
snapshot of the open symbols and close each with reason `END_OF_TEST`,
using the stored trade's entry price as the code does
(`last_price = self.open_positions[symbol].entry_price`). -/
def close_all_positions (endTime : ℚ) (st : SimState) : SimState :=
  (st.openPositions.map Prod.fst).foldl
    (fun s sym =>
      match lookupPos sym s.openPositions with
      | some tr => close_position s sym endTime tr.entryPrice .endOfTest
      | none => s)
    st

/-- Variant of `_close_all_positions` written from the specification's
words for claim C5: the forced close uses the last known price of each
symbol, supplied as a price map. -/
def close_all_positions_spec (lastPrice : ℕ → ℚ) (endTime : ℚ)
    (st : SimState) : SimState :=
  (st.openPositions.map Prod.fst).foldl
    (fun s sym =>
      match lookupPos sym s.openPositions with
      | some _ => close_position s sym endTime (lastPrice sym) .endOfTest
      | none => s)
    st

/-- Finalized form of a trade force-closed at end of test: closed at its
own entry price with reason `END_OF_TEST` (what `_close_position` produces
for the arguments passed by `_close_all_positions`). -/
def finalize_end_of_test (endTime : ℚ) (tr : Trade) : Trade :=
  { tr with
    exitTime := some endTime,
    exitPrice := some tr.entryPrice,
    exitReason := some ExitReason.endOfTest,
    durationHours := endTime - tr.entryTime,
    pnlPercentage := 0,
    pnl := 0,
    riskRewardAchieved := 0 }

/-- Per-trade fields read by `_calculate_results` for the win-rate and
bucket statistics. -/
structure TradeStat where
  pnl : ℚ
  signal_strength : ℕ
  confluence_score : ℕ
deriving DecidableEq

/-- Number of winning trades: `len([t for t in trades if t.pnl > 0])`. -/
def winning_count (ts : List TradeStat) : ℕ :=
  (ts.filter (fun t => t.pnl > 0)).length

/-- Embedding of the overall win rate of `_calculate_results`:
`(winning_trades / total_trades * 100) if total_trades > 0 else 0`. -/
def win_rate (ts : List TradeStat) : ℚ :=
  if 0 < ts.length then
    (winning_count ts : ℚ) / (ts.length : ℚ) * 100
  else 0

/-- Guarded per-bucket win rate used by every strength and confluence
bucket of `_calculate_results`: the division is performed only for a
nonempty bucket and otherwise returns 0. -/
def bucket_win_rate (ts : List TradeStat) : ℚ :=
  if 0 < ts.length then
    (winning_count ts : ℚ) / (ts.length : ℚ) * 100
  else 0

/-- Strength bucket of signals at least 80. -/
def high_strength_trades (ts : List TradeStat) : List TradeStat :=
  ts.filter (fun t => 80 ≤ t.signal_strength)

/-- Strength bucket of signals 60 to 79. -/
def medium_strength_trades (ts : List TradeStat) : List TradeStat :=
  ts.filter (fun t => 60 ≤ t.signal_strength ∧ t.signal_strength < 80)

/-- Strength bucket of signals 50 to 59. -/
def low_strength_trades (ts : List TradeStat) : List TradeStat :=
  ts.filter (fun t => 50 ≤ t.signal_strength ∧ t.signal_strength < 60)

/-- Confluence bucket of score 4. -/
def four_confluence_trades (ts : List TradeStat) : List TradeStat :=
  ts.filter (fun t => t.confluence_score = 4)

/-- Confluence bucket of score 3. -/
def three_confluence_trades (ts : List TradeStat) : List TradeStat :=
  ts.filter (fun t => t.confluence_score = 3)

/-- Confluence bucket of score 2. -/
def two_confluence_trades (ts : List TradeStat) : List TradeStat :=
  ts.filter (fun t => t.confluence_score = 2)

/-- Win rate of the strength bucket of signals at least 80. -/
def high_strength_win_rate (ts : List TradeStat) : ℚ :=
  bucket_win_rate (high_strength_trades ts)

/-- Win rate of the strength bucket of signals 60 to 79. -/
def medium_strength_win_rate (ts : List TradeStat) : ℚ :=
  bucket_win_rate (medium_strength_trades ts)

/-- Win rate of the strength bucket of signals 50 to 59. -/
def low_strength_win_rate (ts : List TradeStat) : ℚ :=
  bucket_win_rate (low_strength_trades ts)

/-- Win rate of the confluence bucket of score 4. -/
def four_confluence_win_rate (ts : List TradeStat) : ℚ :=
  bucket_win_rate (four_confluence_trades ts)

/-- Win rate of the confluence bucket of score 3. -/
def three_confluence_win_rate (ts : List TradeStat) : ℚ :=
  bucket_win_rate (three_confluence_trades ts)

/-- Win rate of the confluence bucket of score 2. -/
def two_confluence_win_rate (ts : List TradeStat) : ℚ :=
  bucket_win_rate (two_confluence_trades ts)

/-- Strings are modelled as lists of character codes. -/
abbrev Str := List ℕ

/-- Calendar timestamp as handled by the Python `datetime` objects that
`save_results` serializes, restricted to whole seconds (the backtester's
bar timestamps carry no sub-second part). -/
structure DateTime where
  year : ℕ
  month : ℕ
  day : ℕ
  hour : ℕ
  minute : ℕ
  second : ℕ
deriving DecidableEq

/-- Zero-padded fixed-width decimal rendering of a number as character
codes, most significant digit first (the field layout of `isoformat`). -/
def padDigits (w n : ℕ) : Str :=
  (((Nat.digits 10 n).map (fun d => d + 48)) ++
    List.replicate (w - (Nat.digits 10 n).length) 48).reverse

/-- Numeric value of a most-significant-first digit-code string. -/
def readNat (l : Str) : ℕ :=
  Nat.ofDigits 10 ((l.map (fun c => c - 48)).reverse)

/-- Rendering of `datetime.isoformat` for whole-second timestamps:
`YYYY-MM-DDTHH:MM:SS` (codes 45, 84 and 58 are the hyphen, the letter T
and the colon).  This models the Python standard-library behaviour relied
on by `BacktestTrade.to_dict` and `BacktestResults.to_dict`. -/
def isoformat (d : DateTime) : Str :=
  padDigits 4 d.year ++ [45] ++ padDigits 2 d.month ++ [45] ++
  padDigits 2 d.day ++ [84] ++ padDigits 2 d.hour ++ [58] ++
  padDigits 2 d.minute ++ [58] ++ padDigits 2 d.second

/-- Parsing of `datetime.fromisoformat` for the format emitted above;
a malformed string yields `none` (the Python call raises).  This models
the Python standard-library behaviour relied on by `load_results`. -/
def fromisoformat : Str → Option DateTime
  | [y1, y2, y3, y4, s1, m1, m2, s2, d1, d2, s3, h1, h2, s4, n1, n2, s5,
      c1, c2] =>
      if s1 = 45 ∧ s2 = 45 ∧ s3 = 84 ∧ s4 = 58 ∧ s5 = 58 then
        some { year := readNat [y1, y2, y3, y4], month := readNat [m1, m2],
               day := readNat [d1, d2], hour := readNat [h1, h2],
               minute := readNat [n1, n2], second := readNat [c1, c2] }
      else none
  | _ => none

/-- Field bounds under which the fixed-width rendering is faithful; every
real calendar timestamp satisfies them. -/
def DateTime.Valid (d : DateTime) : Prop :=
  d.year < 10000 ∧ d.month < 100 ∧ d.day < 100 ∧ d.hour < 100 ∧
  d.minute < 100 ∧ d.second < 100

/-- Embedding of the `BacktestTrade` dataclass with its full field list,
as serialized by `save_results` (floats as rationals, strings as code
lists, datetimes as calendar records). -/
structure BacktestTradeRec where
  symbol : Str
  entry_time : DateTime
  exit_time : Option DateTime
  entry_price : ℚ
  exit_price : Option ℚ
  signal_type : Str
  signal_strength : ℤ
  confluence_score : ℤ
  position_size : ℚ
  stop_loss : ℚ
  target_1 : ℚ
  target_2 : ℚ
  exit_reason : Str
  pnl : ℚ
  pnl_percentage : ℚ
  max_drawdown : ℚ
  max_profit : ℚ
  duration_hours : ℚ
  risk_reward_achieved : ℚ
deriving DecidableEq

/-- Dictionary form of a trade produced by `BacktestTrade.to_dict`: the
same fields with the timestamps rendered as ISO-8601 strings (and the
unset exit time as `None`). -/
structure TradeDict where
  symbol : Str
  entry_time : Str
  exit_time : Option Str
  entry_price : ℚ
  exit_price : Option ℚ
  signal_type : Str
  signal_strength : ℤ
  confluence_score : ℤ
  position_size : ℚ
  stop_loss : ℚ
  target_1 : ℚ
  target_2 : ℚ
  exit_reason : Str
  pnl : ℚ
  pnl_percentage : ℚ
  max_drawdown : ℚ
  max_profit : ℚ
  duration_hours : ℚ
  risk_reward_achieved : ℚ
deriving DecidableEq

/-- Embedding of `BacktestTrade.to_dict`. -/
def trade_to_dict (t : BacktestTradeRec) : TradeDict :=
  { symbol := t.symbol,
    entry_time := isoformat t.entry_time,
    exit_time := t.exit_time.map isoformat,
    entry_price := t.entry_price,
    exit_price := t.exit_price,
    signal_type := t.signal_type,
    signal_strength := t.signal_strength,
    confluence_score := t.confluence_score,
    position_size := t.position_size,
    stop_loss := t.stop_loss,
    target_1 := t.target_1,
    target_2 := t.target_2,
    exit_reason := t.exit_reason,
    pnl := t.pnl,
    pnl_percentage := t.pnl_percentage,
    max_drawdown := t.max_drawdown,
    max_profit := t.max_profit,
    duration_hours := t.duration_hours,
    risk_reward_achieved := t.risk_reward_achieved }

/-- Embedding of the per-trade reconstruction loop of `load_results`:
parse the entry time, parse the exit time only when it is set, rebuild
the `BacktestTrade`; a parse failure propagates (Python raises). -/
def trade_from_dict (d : TradeDict) : Option BacktestTradeRec :=
  match fromisoformat d.entry_time with
  | none => none
  | some et =>
      match d.exit_time with
      | none => some
          { symbol := d.symbol, entry_time := et, exit_time := none,
            entry_price := d.entry_price, exit_price := d.exit_price,
            signal_type := d.signal_type,
            signal_strength := d.signal_strength,
            confluence_score := d.confluence_score,
            position_size := d.position_size, stop_loss := d.stop_loss,
            target_1 := d.target_1, target_2 := d.target_2,
            exit_reason := d.exit_reason, pnl := d.pnl,
            pnl_percentage := d.pnl_percentage,
            max_drawdown := d.max_drawdown, max_profit := d.max_profit,
            duration_hours := d.duration_hours,
            risk_reward_achieved := d.risk_reward_achieved }
      | some s =>
          match fromisoformat s with
          | none => none
          | some xt => some
              { symbol := d.symbol, entry_time := et,
                exit_time := some xt, entry_price := d.entry_price,
                exit_price := d.exit_price, signal_type := d.signal_type,
                signal_strength := d.signal_strength,
                confluence_score := d.confluence_score,
                position_size := d.position_size,
                stop_loss := d.stop_loss, target_1 := d.target_1,
                target_2 := d.target_2, exit_reason := d.exit_reason,
                pnl := d.pnl, pnl_percentage := d.pnl_percentage,
                max_drawdown := d.max_drawdown,
                max_profit := d.max_profit,
                duration_hours := d.duration_hours,
                risk_reward_achieved := d.risk_reward_achieved }

/-- Embedding of the `BacktestResults` dataclass with its full field
list.  The `philosophy_validation` dictionary of floats is carried as a
key-value list. -/
structure BacktestResultsRec where
  start_date : DateTime
  end_date : DateTime
  initial_capital : ℚ
  symbols_tested : List Str
  total_trades : ℤ
  winning_trades : ℤ
  losing_trades : ℤ
  win_rate : ℚ
  final_capital : ℚ
  total_return : ℚ
  total_return_percentage : ℚ
  max_drawdown : ℚ
  max_drawdown_percentage : ℚ
  sharpe_ratio : ℚ
  calmar_ratio : ℚ
  avg_trade_duration : ℚ
  avg_win : ℚ
  avg_loss : ℚ
  best_trade : ℚ
  worst_trade : ℚ
  avg_risk_reward : ℚ
  high_strength_trades : ℤ
  medium_strength_trades : ℤ
  low_strength_trades : ℤ
  high_strength_win_rate : ℚ
  medium_strength_win_rate : ℚ
  low_strength_win_rate : ℚ
  four_confluence_trades : ℤ
  three_confluence_trades : ℤ
  two_confluence_trades : ℤ
  four_confluence_win_rate : ℚ
  three_confluence_win_rate : ℚ
  two_confluence_win_rate : ℚ
  philosophy_validation : List (Str × ℚ)
deriving DecidableEq

/-- Dictionary form of the results produced by `BacktestResults.to_dict`:
the same fields with the two dates rendered as ISO-8601 strings. -/
structure ResultsDict where
  start_date : Str
  end_date : Str
  initial_capital : ℚ
  symbols_tested : List Str
  total_trades : ℤ
  winning_trades : ℤ
  losing_trades : ℤ
  win_rate : ℚ
  final_capital : ℚ
  total_return : ℚ
  total_return_percentage : ℚ
  max_drawdown : ℚ
  max_drawdown_percentage : ℚ
  sharpe_ratio : ℚ
  calmar_ratio : ℚ
  avg_trade_duration : ℚ
  avg_win : ℚ
  avg_loss : ℚ
  best_trade : ℚ
  worst_trade : ℚ
  avg_risk_reward : ℚ
  high_strength_trades : ℤ
  medium_strength_trades : ℤ
  low_strength_trades : ℤ
  high_strength_win_rate : ℚ
  medium_strength_win_rate : ℚ
  low_strength_win_rate : ℚ
  four_confluence_trades : ℤ
  three_confluence_trades : ℤ
  two_confluence_trades : ℤ
  four_confluence_win_rate : ℚ
  three_confluence_win_rate : ℚ
  two_confluence_win_rate : ℚ
  philosophy_validation : List (Str × ℚ)
deriving DecidableEq

/-- Embedding of `BacktestResults.to_dict`. -/
def results_to_dict (r : BacktestResultsRec) : ResultsDict :=
  { start_date := isoformat r.start_date,
    end_date := isoformat r.end_date,
    initial_capital := r.initial_capital,
    symbols_tested := r.symbols_tested,
    total_trades := r.total_trades,
    winning_trades := r.winning_trades,
    losing_trades := r.losing_trades,
    win_rate := r.win_rate,
    final_capital := r.final_capital,
    total_return := r.total_return,
    total_return_percentage := r.total_return_percentage,
    max_drawdown := r.max_drawdown,
    max_drawdown_percentage := r.max_drawdown_percentage,
    sharpe_ratio := r.sharpe_ratio,
    calmar_ratio := r.calmar_ratio,
    avg_trade_duration := r.avg_trade_duration,
    avg_win := r.avg_win,
    avg_loss := r.avg_loss,
    best_trade := r.best_trade,
    worst_trade := r.worst_trade,
    avg_risk_reward := r.avg_risk_reward,
    high_strength_trades := r.high_strength_trades,
    medium_strength_trades := r.medium_strength_trades,
    low_strength_trades := r.low_strength_trades,
    high_strength_win_rate := r.high_strength_win_rate,
    medium_strength_win_rate := r.medium_strength_win_rate,
    low_strength_win_rate := r.low_strength_win_rate,
    four_confluence_trades := r.four_confluence_trades,
    three_confluence_trades := r.three_confluence_trades,
    two_confluence_trades := r.two_confluence_trades,
    four_confluence_win_rate := r.four_confluence_win_rate,
    three_confluence_win_rate := r.three_confluence_win_rate,
    two_confluence_win_rate := r.two_confluence_win_rate,
    philosophy_validation := r.philosophy_validation }

/-- Embedding of the results reconstruction of `load_results`: parse the
two dates back into datetimes and rebuild `BacktestResults` with every
other field unchanged. -/
def results_from_dict (d : ResultsDict) : Option BacktestResultsRec :=
  match fromisoformat d.start_date, fromisoformat d.end_date with
  | some s, some e => some
      { start_date := s,
        end_date := e,
        initial_capital := d.initial_capital,
        symbols_tested := d.symbols_tested,
        total_trades := d.total_trades,
        winning_trades := d.winning_trades,
        losing_trades := d.losing_trades,
        win_rate := d.win_rate,
        final_capital := d.final_capital,
        total_return := d.total_return,
        total_return_percentage := d.total_return_percentage,
        max_drawdown := d.max_drawdown,
        max_drawdown_percentage := d.max_drawdown_percentage,
        sharpe_ratio := d.sharpe_ratio,
        calmar_ratio := d.calmar_ratio,
        avg_trade_duration := d.avg_trade_duration,
        avg_win := d.avg_win,
        avg_loss := d.avg_loss,
        best_trade := d.best_trade,
        worst_trade := d.worst_trade,
        avg_risk_reward := d.avg_risk_reward,
        high_strength_trades := d.high_strength_trades,
        medium_strength_trades := d.medium_strength_trades,
        low_strength_trades := d.low_strength_trades,
        high_strength_win_rate := d.high_strength_win_rate,
        medium_strength_win_rate := d.medium_strength_win_rate,
        low_strength_win_rate := d.low_strength_win_rate,
        four_confluence_trades := d.four_confluence_trades,
        three_confluence_trades := d.three_confluence_trades,
        two_confluence_trades := d.two_confluence_trades,
        four_confluence_win_rate := d.four_confluence_win_rate,
        three_confluence_win_rate := d.three_confluence_win_rate,
        two_confluence_win_rate := d.two_confluence_win_rate,
        philosophy_validation := d.philosophy_validation }
  | _, _ => none

/-- Content of the JSON export written by `save_results` that
`load_results` reads back: the results dictionary under the key
`results` and the trade dictionaries under the key `trades` (the
constant metadata fields of the file are never read back). -/
structure SavedData where
  results : ResultsDict
  trades : List TradeDict
deriving DecidableEq

/-- Embedding of `MerinoBacktester.save_results` at the data level: the
JSON layer is a faithful carrier for numbers, strings and nulls, so the
export is the dictionary form of the results and of every trade. -/
def save_results (r : BacktestResultsRec) (trades : List BacktestTradeRec) :
    SavedData :=
  { results := results_to_dict r,
    trades := trades.map trade_to_dict }

/-- Embedding of `MerinoBacktester.load_results`: rebuild the results
record and every trade from the saved dictionaries; any parse failure
propagates (Python raises). -/
def load_results (d : SavedData) :
    Option (BacktestResultsRec × List BacktestTradeRec) :=
  match results_from_dict d.results with
  | none => none
  | some r =>
      match d.trades.mapM trade_from_dict with
      | none => none
      | some ts => some (r, ts)

/-- Concrete results record used to evaluate the round-trip theorem. -/
def sampleResults : BacktestResultsRec :=
  { start_date := ⟨2024, 1, 2, 3, 4, 5⟩,
    end_date := ⟨2024, 2, 3, 4, 5, 6⟩,
    initial_capital := 10000,
    symbols_tested := [[66, 84, 67]],
    total_trades := 2,
    winning_trades := 1,
    losing_trades := 1,
    win_rate := 50,
    final_capital := 10100,
    total_return := 100,
    total_return_percentage := 1,
    max_drawdown := 50,
    max_drawdown_percentage := 1/2,
    sharpe_ratio := 2,
    calmar_ratio := 2,
    avg_trade_duration := 12,
    avg_win := 150,
    avg_loss := -50,
    best_trade := 150,
    worst_trade := -50,
    avg_risk_reward := 3/2,
    high_strength_trades := 1,
    medium_strength_trades := 1,
    low_strength_trades := 0,
    high_strength_win_rate := 100,
    medium_strength_win_rate := 0,
    low_strength_win_rate := 0,
    four_confluence_trades := 1,
    three_confluence_trades := 1,
    two_confluence_trades := 0,
    four_confluence_win_rate := 100,
    three_confluence_win_rate := 0,
    two_confluence_win_rate := 0,
    philosophy_validation := [([100, 105], 50)] }

/-- Concrete closed trade used to evaluate the round-trip theorem. -/
def sampleTradeRec : BacktestTradeRec :=
  { symbol := [66, 84, 67],
    entry_time := ⟨2024, 1, 10, 8, 0, 0⟩,
    exit_time := some ⟨2024, 1, 11, 12, 0, 0⟩,
    entry_price := 100,
    exit_price := some 102,
    signal_type := [76, 79, 78, 71],
    signal_strength := 65,
    confluence_score := 3,
    position_size := 200,
    stop_loss := 98,
    target_1 := 102,
    target_2 := 105,
    exit_reason := [84, 49],
    pnl := 4,
    pnl_percentage := 1/50,
    max_drawdown := 0,
    max_profit := 4,
    duration_hours := 28,
    risk_reward_achieved := 1 }

end TradingLatino

namespace TradingLatino

/-- C3: for every input combination of bias, trend validity, momentum,
compression flag, current price and fast EMA, the code's action decision
agrees with the specification's priority order (compressed, then LONG, then
SHORT, then WAIT when the bias is neutral or secondary-timeframe
confirmation is absent, else NO_SIGNAL), instantiated with the code's
configuration in which no secondary-timeframe confirmation exists (the 1h
data is never consulted), so confirmation is uniformly absent. -/
theorem determine_signal_matches_spec_priority (bias : Bias)
    (trendValid : Bool) (momentum : ℚ) (isSqueeze : Bool)
    (price ema11 ema55 : ℚ) :
    determine_signal bias trendValid momentum isSqueeze price ema11 ema55 =
      determine_signal_claim bias trendValid momentum isSqueeze price ema11
        ema55 false := by
  unfold determine_signal determine_signal_claim
  split_ifs with h1 h2 h3 h4
  · rfl
  · rfl
  · rfl
  · rfl
  · exact absurd (Or.inr rfl) h4

/-- Counting helper: the number of true entries among four decidable
conditions equals the corresponding sum of indicator values. -/
lemma countP_four_conditions (p1 p2 p3 p4 : Prop) [Decidable p1]
    [Decidable p2] [Decidable p3] [Decidable p4] :
    List.countP id [decide p1, decide p2, decide p3, decide p4] =
      (if p1 then 1 else 0) + (if p2 then 1 else 0) +
      (if p3 then 1 else 0) + (if p4 then 1 else 0) := by
  by_cases h1 : p1 <;> by_cases h2 : p2 <;> by_cases h3 : p3 <;>
    by_cases h4 : p4 <;> simp [h1, h2, h3, h4]

/-- C6: the confluence score equals the number of the four listed conditions
that hold (bias not neutral, validated trend, absolute momentum above the
0.5 threshold, point of control within 3% of price) and always lies between
0 and 4. -/
theorem confluence_counts_conditions (bias : Bias) (trendValid : Bool)
    (momentum : ℚ) (vpocDistancePct : ℚ) :
    calculate_confluence bias trendValid momentum vpocDistancePct =
      List.countP id
        [decide (bias ≠ .neutral), decide (trendValid = true),
         decide (|momentum| > 1/2), decide (|vpocDistancePct| < 3)] ∧
    calculate_confluence bias trendValid momentum vpocDistancePct ≤ 4 := by
  constructor
  · exact (countP_four_conditions _ _ _ _).symm
  · unfold calculate_confluence
    split_ifs <;> norm_num

/-- C10: the strength score is exactly 25 for the WAIT and WAIT_SQUEEZE
actions and otherwise is clamped into the interval from 5 to 95; the score
is never 0 and never 100, and a 0 strength arises only from the error
fallback empty signal. -/
theorem merino_strength_bounds (signal : SignalAction) (bias : Bias)
    (adxStrength : ADXStrength) (momentum : ℚ) (vpocDistancePct : ℚ)
    (price ema11 : ℚ) :
    (((signal = .wait ∨ signal = .waitSqueeze) ∧
        calculate_merino_strength signal bias adxStrength momentum
          vpocDistancePct price ema11 = 25) ∨
      (¬(signal = .wait ∨ signal = .waitSqueeze) ∧
        5 ≤ calculate_merino_strength signal bias adxStrength momentum
          vpocDistancePct price ema11 ∧
        calculate_merino_strength signal bias adxStrength momentum
          vpocDistancePct price ema11 ≤ 95)) ∧
    calculate_merino_strength signal bias adxStrength momentum
      vpocDistancePct price ema11 ≠ 0 ∧
    calculate_merino_strength signal bias adxStrength momentum
      vpocDistancePct price ema11 ≠ 100 ∧
    get_empty_signal.signal_strength = 0 ∧
    get_empty_signal.signal = .noSignal := by
  by_cases h : signal = .wait ∨ signal = .waitSqueeze
  · have hval : calculate_merino_strength signal bias adxStrength momentum
        vpocDistancePct price ema11 = 25 := by
      unfold calculate_merino_strength
      rw [if_pos h]
    refine ⟨Or.inl ⟨h, hval⟩, by rw [hval]; norm_num,
      by rw [hval]; norm_num, rfl, rfl⟩
  · have hb : 5 ≤ calculate_merino_strength signal bias adxStrength momentum
        vpocDistancePct price ema11 ∧
        calculate_merino_strength signal bias adxStrength momentum
          vpocDistancePct price ema11 ≤ 95 := by
      unfold calculate_merino_strength
      rw [if_neg h]
      exact ⟨le_min (by norm_num) (le_max_left _ _), min_le_left _ _⟩
    refine ⟨Or.inr ⟨h, hb.1, hb.2⟩, by omega, by omega, rfl, rfl⟩

/-- C1: the exit decision of `_check_open_positions` equals the first
matching condition of the specification's precedence list (stop-loss, then
target 2, then target 1, then technical invalidation, then the 48-hour
time limit), and a bar appends at most one closed trade to the ledger. -/
theorem exit_precedence_single_exit (side : TradeSide)
    (stopLoss target1 target2 price ema11 duration : ℚ)
    (st : SimState) (ev : BarEvent) :
    check_exit_reason side stopLoss target1 target2 price ema11 duration =
      check_exit_reason_spec side stopLoss target1 target2 price ema11
        duration ∧
    (check_open_positions st ev).trades.length ≤ st.trades.length + 1 := by
  constructor
  · cases side
    · by_cases h1 : price ≤ stopLoss <;>
        by_cases h2 : price ≥ target2 <;>
          by_cases h3 : price ≥ target1 <;>
            by_cases h4 : price < ema11 * (995/1000) <;>
              by_cases h5 : duration > 48 <;>
                simp [check_exit_reason, check_exit_reason_spec,
                  h1, h2, h3, h4, h5]
    · by_cases h1 : price ≥ stopLoss <;>
        by_cases h2 : price ≤ target2 <;>
          by_cases h3 : price ≤ target1 <;>
            by_cases h4 : price > ema11 * (1005/1000) <;>
              by_cases h5 : duration > 48 <;>
                simp [check_exit_reason, check_exit_reason_spec,
                  h1, h2, h3, h4, h5]
  · unfold check_open_positions
    split
    · omega
    · dsimp only
      split
      · unfold close_position
        split
        · dsimp only
          omega
        · dsimp only
          simp [List.length_append]
      · dsimp only
        omega

/-- Keys of the open-position list are unchanged by an in-place trade
update. -/
lemma keys_updatePos (sym : ℕ) (tr : Trade) (l : List (ℕ × Trade)) :
    (updatePos sym tr l).map Prod.fst = l.map Prod.fst := by
  induction l with
  | nil => rfl
  | cons p rest ih =>
      unfold updatePos
      by_cases h : p.1 = sym
      · simp [h, ih]
      · simp [h, ih]

/-- Membership in the keys of the open-position list after a deletion
implies membership before it. -/
lemma mem_keys_removePos (a sym : ℕ) (l : List (ℕ × Trade))
    (h : a ∈ (removePos sym l).map Prod.fst) : a ∈ l.map Prod.fst := by
  induction l with
  | nil => simp [removePos] at h
  | cons p rest ih =>
      unfold removePos at h
      by_cases hp : p.1 = sym
      · rw [if_pos hp] at h
        exact List.mem_cons_of_mem _ (ih h)
      · rw [if_neg hp] at h
        rcases List.mem_cons.mp h with h' | h'
        · exact List.mem_cons.mpr (Or.inl h')
        · exact List.mem_cons_of_mem _ (ih h')

/-- Deletion preserves key uniqueness. -/
lemma nodupKeys_removePos (sym : ℕ) (l : List (ℕ × Trade))
    (h : nodupKeys l) : nodupKeys (removePos sym l) := by
  induction l with
  | nil => simpa [removePos] using h
  | cons p rest ih =>
      rw [nodupKeys, List.map_cons, List.nodup_cons] at h
      unfold removePos
      by_cases hp : p.1 = sym
      · rw [if_pos hp]
        exact ih h.2
      · rw [if_neg hp]
        rw [nodupKeys, List.map_cons, List.nodup_cons]
        exact ⟨fun hm => h.1 (mem_keys_removePos _ _ _ hm), ih h.2⟩

/-- Failed lookup is equivalent to absence from the keys. -/
lemma lookupPos_eq_none (sym : ℕ) (l : List (ℕ × Trade)) :
    lookupPos sym l = none ↔ sym ∉ l.map Prod.fst := by
  induction l with
  | nil => simp [lookupPos]
  | cons p rest ih =>
      unfold lookupPos
      by_cases h : p.1 = sym
      · simp [h]
      · simp only [if_neg h, List.map_cons, List.mem_cons, ih]
        constructor
        · intro hn
          rintro (he | hm)
          · exact h he.symm
          · exact hn hm
        · intro hn hm
          exact hn (Or.inr hm)

/-- Looking up a symbol after deleting it fails. -/
lemma lookupPos_removePos (sym : ℕ) (l : List (ℕ × Trade)) :
    lookupPos sym (removePos sym l) = none := by
  induction l with
  | nil => rfl
  | cons p rest ih =>
      unfold removePos
      by_cases h : p.1 = sym
      · rw [if_pos h]
        exact ih
      · rw [if_neg h]
        unfold lookupPos
        rw [if_neg h]
        exact ih

/-- Closing a position preserves key uniqueness. -/
lemma nodupKeys_close_position (st : SimState) (sym : ℕ)
    (exitTime exitPrice : ℚ) (reason : ExitReason)
    (h : nodupKeys st.openPositions) :
    nodupKeys (close_position st sym exitTime exitPrice
      reason).openPositions := by
  unfold close_position
  split
  · exact h
  · exact nodupKeys_removePos _ _ h

/-- Evaluating open positions on a bar preserves key uniqueness. -/
lemma nodupKeys_check_open_positions (st : SimState) (ev : BarEvent)
    (h : nodupKeys st.openPositions) :
    nodupKeys (check_open_positions st ev).openPositions := by
  unfold check_open_positions
  split
  · exact h
  · next tr heq =>
      have h1 : nodupKeys (updatePos ev.sym (update_excursions tr ev.price)
          st.openPositions) := by
        rw [nodupKeys, keys_updatePos]
        exact h
      dsimp only
      split
      · exact nodupKeys_close_position _ _ _ _ _ h1
      · exact h1

/-- Processing one bar preserves key uniqueness: a new position is only
registered when its symbol is absent from the mapping. -/
lemma nodupKeys_process_bar (st : SimState) (ev : BarEvent)
    (h : nodupKeys st.openPositions) :
    nodupKeys (process_bar st ev).openPositions := by
  have h1 := nodupKeys_check_open_positions st ev h
  unfold process_bar
  dsimp only
  split
  · exact h1
  · next hnone =>
      unfold check_entry_signal
      split
      · unfold open_position
        rw [nodupKeys, List.map_cons, List.nodup_cons]
        exact ⟨(lookupPos_eq_none _ _).mp hnone, h1⟩
      · exact h1

/-- C2: running the simulator over any bar sequence from a fresh state
keeps the open-position mapping free of duplicate symbols (at most one
open trade per symbol at every point), and closing a position removes its
symbol from the mapping. -/
theorem open_positions_at_most_one_per_symbol (events : List BarEvent)
    (capital : ℚ) :
    nodupKeys (run_bars events (initState capital)).openPositions ∧
    (∀ (st : SimState) (sym : ℕ) (exitTime exitPrice : ℚ)
        (reason : ExitReason),
      lookupPos sym (close_position st sym exitTime exitPrice
        reason).openPositions = none) := by
  constructor
  · have main : ∀ (evs : List BarEvent) (st : SimState),
        nodupKeys st.openPositions →
          nodupKeys (run_bars evs st).openPositions := by
      intro evs
      induction evs with
      | nil => intro st h; exact h
      | cons e rest ih =>
          intro st h
          exact ih _ (nodupKeys_process_bar st e h)
    exact main events (initState capital) (by simp [initState, nodupKeys])
  · intro st sym exitTime exitPrice reason
    unfold close_position
    cases hl : lookupPos sym st.openPositions with
    | none => exact hl
    | some tr => exact lookupPos_removePos _ _

/-- C4 sizing lemma: for any tradeable strength (at least 50) the code's
position size equals the specification's strength-tiered percentage of
current capital, capped at 20% of current capital. -/
lemma position_size_tiers (capital : ℚ) (strength : ℕ)
    (h : 50 ≤ strength) :
    calculate_position_size capital strength =
      min (capital * tier_pct_claim strength) (capital * (20/100)) := by
  simp only [calculate_position_size, tier_pct_claim]
  split_ifs <;> first | rfl | omega

/-- C4: when flat, a LONG or SHORT signal of strength at least 50 opens a
position whose size is the strength-tiered percentage of current capital
(1% at 50 to 59, 2% at 60 to 69, 3% at 70 to 79, 5% at 80 and above)
capped at 20% of current capital, and that size is subtracted from
capital; any other signal opens nothing and leaves the state unchanged. -/
theorem entry_opens_tier_sized_position (st : SimState) (ev : BarEvent) :
    ((ev.action = .long ∨ ev.action = .short) → 50 ≤ ev.strength →
      (check_entry_signal st ev).openPositions =
        (ev.sym, make_trade ev.sym ev.time ev.price ev.action ev.strength
          ev.confluence (min (st.capital * tier_pct_claim ev.strength)
            (st.capital * (20/100)))) :: st.openPositions ∧
      (check_entry_signal st ev).capital =
        st.capital - min (st.capital * tier_pct_claim ev.strength)
          (st.capital * (20/100)) ∧
      (check_entry_signal st ev).trades = st.trades) ∧
    (¬((ev.action = .long ∨ ev.action = .short) ∧ 50 ≤ ev.strength) →
      check_entry_signal st ev = st) := by
  constructor
  · intro ha hs
    unfold check_entry_signal
    rw [if_pos ⟨ha, hs⟩]
    unfold open_position
    rw [position_size_tiers st.capital ev.strength hs]
    exact ⟨rfl, rfl, rfl⟩
  · intro hn
    unfold check_entry_signal
    rw [if_neg hn]

/-- C4 witness: with capital 10000, a LONG signal of strength 65 opens a
2% position of 200 (below the 20% cap), leaving capital 9800; a LONG
signal of strength 40 opens nothing. -/
theorem entry_opens_tier_sized_position_witness :
    (check_entry_signal (initState 10000)
        { sym := 0, time := 0, price := 100, ema11 := 100,
          action := .long, strength := 65, confluence := 3 }).capital =
      9800 ∧
    check_entry_signal (initState 10000)
        { sym := 0, time := 0, price := 100, ema11 := 100,
          action := .long, strength := 40, confluence := 3 } =
      initState 10000 := by
  constructor
  · have h := (entry_opens_tier_sized_position (initState 10000)
      { sym := 0, time := 0, price := 100, ema11 := 100,
        action := .long, strength := 65, confluence := 3 }).1
      (Or.inl rfl) (by norm_num)
    rw [h.2.1]
    norm_num [tier_pct_claim, initState, min_def]
  · exact (entry_opens_tier_sized_position (initState 10000)
      { sym := 0, time := 0, price := 100, ema11 := 100,
        action := .long, strength := 40, confluence := 3 }).2 (by decide)

/-- Deleting an absent key leaves the open-position list unchanged. -/
lemma removePos_of_not_mem (sym : ℕ) (l : List (ℕ × Trade))
    (h : sym ∉ l.map Prod.fst) : removePos sym l = l := by
  induction l with
  | nil => rfl
  | cons p rest ih =>
      rw [List.map_cons, List.mem_cons] at h
      push_neg at h
      unfold removePos
      rw [if_neg (fun he => h.1 he.symm), ih h.2]

/-- Closing a position at its own entry price produces exactly the
end-of-test finalized trade: zero realized profit, zero percentage, zero
achieved risk/reward, and the capital is credited with exactly the
position size. -/
lemma close_at_entry_finalizes (st : SimState) (sym : ℕ) (endTime : ℚ)
    (tr : Trade) (h : lookupPos sym st.openPositions = some tr) :
    close_position st sym endTime tr.entryPrice .endOfTest =
      { capital := st.capital + tr.positionSize,
        openPositions := removePos sym st.openPositions,
        trades := st.trades ++ [finalize_end_of_test endTime tr] } := by
  unfold close_position
  rw [h]
  dsimp only
  have hpct : (if tr.side = TradeSide.long
      then (tr.entryPrice - tr.entryPrice) / tr.entryPrice
      else (tr.entryPrice - tr.entryPrice) / tr.entryPrice) = 0 := by
    split_ifs <;> simp
  rw [hpct]
  unfold finalize_end_of_test
  simp

/-- Unfolded characterization of `_close_all_positions`: with unique keys,
every open position is closed exactly once at its entry price with reason
`END_OF_TEST`, the mapping is emptied, the finalized trades are appended
to the ledger in order, and the capital is credited with the sum of the
open position sizes. -/
lemma close_all_positions_eq (endTime : ℚ) :
    ∀ (l : List (ℕ × Trade)) (st : SimState),
      nodupKeys l → st.openPositions = l →
      close_all_positions endTime st =
        { capital := st.capital +
            (l.map (fun p => p.2.positionSize)).sum,
          openPositions := [],
          trades := st.trades ++
            l.map (fun p => finalize_end_of_test endTime p.2) } := by
  intro l
  induction l with
  | nil =>
      intro st _ hopen
      cases st with
      | mk capital openPositions trades =>
          simp only at hopen
          subst hopen
          simp [close_all_positions]
  | cons p rest ih =>
      intro st hnodup hopen
      rw [nodupKeys, List.map_cons, List.nodup_cons] at hnodup
      have hlook : lookupPos p.1 st.openPositions = some p.2 := by
        rw [hopen]
        unfold lookupPos
        rw [if_pos rfl]
      unfold close_all_positions
      rw [hopen, List.map_cons, List.foldl_cons, hlook]
      dsimp only
      rw [close_at_entry_finalizes st p.1 endTime p.2 hlook]
      have hrem : removePos p.1 st.openPositions = rest := by
        rw [hopen]
        unfold removePos
        rw [if_pos rfl, removePos_of_not_mem p.1 rest hnodup.1]
      have happ := ih
        { capital := st.capital + p.2.positionSize,
          openPositions := rest,
          trades := st.trades ++ [finalize_end_of_test endTime p.2] }
        hnodup.2 rfl
      unfold close_all_positions at happ
      dsimp only at happ
      rw [hrem, happ]
      simp [add_assoc]

/-- C5 counterexample: with a position entered at price 100 still open
while the symbol's last known price is 101, the end-of-test forced close
records exit price 100 — the stored entry price
(`last_price = self.open_positions[symbol].entry_price`) — while the
specification-worded variant closing at the last known price records 101.
The claim that the forced close uses the last known price is therefore
false on the code. -/
theorem end_of_test_price_counterexample :
    ((close_all_positions 2 sampleOpenState).trades.map
        (fun t => t.exitPrice)) = [some 100] ∧
    ((close_all_positions_spec (fun _ => 101) 2 sampleOpenState).trades.map
        (fun t => t.exitPrice)) = [some 101] ∧
    (100 : ℚ) ≠ 101 := by
  refine ⟨?_, ?_, by norm_num⟩
  · rw [close_all_positions_eq 2 sampleOpenState.openPositions
      sampleOpenState (by simp [nodupKeys, sampleOpenState]) rfl]
    simp [sampleOpenState, finalize_end_of_test, sampleOpenTrade]
  · simp [close_all_positions_spec, sampleOpenState, lookupPos,
      close_position, sampleOpenTrade, removePos, reduceCtorEq]

/-- C5 amended: at the end of a test, every still-open position is
force-closed exactly once with exit reason `END_OF_TEST` at the trade's
own entry price (the code's stand-in for the last known price), the
open-position mapping is emptied, and the finalized trades are appended
to the closed-trade ledger. -/
theorem end_of_test_force_closes_every_position (endTime : ℚ)
    (st : SimState) (h : nodupKeys st.openPositions) :
    (close_all_positions endTime st).openPositions = [] ∧
    (close_all_positions endTime st).trades = st.trades ++
      st.openPositions.map (fun p => finalize_end_of_test endTime p.2) ∧
    ∀ p ∈ st.openPositions,
      (finalize_end_of_test endTime p.2).exitReason =
        some ExitReason.endOfTest ∧
      (finalize_end_of_test endTime p.2).exitPrice =
        some p.2.entryPrice := by
  rw [close_all_positions_eq endTime st.openPositions st h rfl]
  exact ⟨rfl, rfl, fun p _ => ⟨rfl, rfl⟩⟩

/-- C5 witness: the amended theorem evaluated on the concrete
one-position state. -/
theorem end_of_test_force_closes_every_position_witness :
    (close_all_positions 2 sampleOpenState).openPositions = [] ∧
    (close_all_positions 2 sampleOpenState).trades =
      [finalize_end_of_test 2 sampleOpenTrade] := by
  have h := end_of_test_force_closes_every_position 2 sampleOpenState
    (by simp [nodupKeys, sampleOpenState])
  exact ⟨h.1, h.2.1⟩

/-- C9: every end-of-test forced close happens at the trade's own entry
price, so the finalized trade has zero realized profit, zero profit
percentage and zero achieved risk/reward, and the run's capital is
credited back exactly the sum of the position sizes deducted at entry. -/
theorem end_of_test_trades_have_zero_pnl (endTime : ℚ) (st : SimState)
    (h : nodupKeys st.openPositions) :
    (close_all_positions endTime st).capital = st.capital +
      (st.openPositions.map (fun p => p.2.positionSize)).sum ∧
    (close_all_positions endTime st).trades = st.trades ++
      st.openPositions.map (fun p => finalize_end_of_test endTime p.2) ∧
    ∀ p ∈ st.openPositions,
      (finalize_end_of_test endTime p.2).exitPrice =
        some p.2.entryPrice ∧
      (finalize_end_of_test endTime p.2).pnl = 0 ∧
      (finalize_end_of_test endTime p.2).pnlPercentage = 0 ∧
      (finalize_end_of_test endTime p.2).riskRewardAchieved = 0 := by
  rw [close_all_positions_eq endTime st.openPositions st h rfl]
  exact ⟨rfl, rfl, fun p _ => ⟨rfl, rfl, rfl, rfl⟩⟩

/-- C9 witness: on the concrete one-position state the forced close
credits back exactly the 200 deducted at entry and realizes zero profit. -/
theorem end_of_test_trades_have_zero_pnl_witness :
    (close_all_positions 3 sampleOpenState).capital = 10000 ∧
    (finalize_end_of_test 3 sampleOpenTrade).pnl = 0 ∧
    (finalize_end_of_test 3 sampleOpenTrade).riskRewardAchieved = 0 := by
  have h := end_of_test_trades_have_zero_pnl 3 sampleOpenState
    (by simp [nodupKeys, sampleOpenState])
  refine ⟨?_, ?_, ?_⟩
  · rw [h.1]
    norm_num [sampleOpenState, sampleOpenTrade]
  · exact (h.2.2 (0, sampleOpenTrade) (List.mem_singleton.mpr rfl)).2.1
  · exact (h.2.2 (0, sampleOpenTrade) (List.mem_singleton.mpr rfl)).2.2.2

/-- Bounds for the guarded rate expression shared by the overall win rate
and every bucket win rate. -/
lemma bucket_win_rate_bounds (ts : List TradeStat) :
    0 ≤ bucket_win_rate ts ∧ bucket_win_rate ts ≤ 100 := by
  unfold bucket_win_rate
  split_ifs with h
  · constructor
    · apply mul_nonneg _ (by norm_num)
      exact div_nonneg (by positivity) (by positivity)
    · have hw : (winning_count ts : ℚ) ≤ (ts.length : ℚ) := by
        exact_mod_cast List.length_filter_le _ ts
      have hl : (0 : ℚ) < (ts.length : ℚ) := by exact_mod_cast h
      have h1 : (winning_count ts : ℚ) / (ts.length : ℚ) ≤ 1 :=
        (div_le_one hl).mpr hw
      calc (winning_count ts : ℚ) / (ts.length : ℚ) * 100 ≤ 1 * 100 :=
            mul_le_mul_of_nonneg_right h1 (by norm_num)
        _ = 100 := by norm_num
  · norm_num

/-- C7: the overall win rate equals winning trades over total trades times
100 for a nonempty ledger, lies in the interval from 0 to 100, and is 0
for an empty ledger; every strength-bucket and confluence-bucket win rate
returns 0 on an empty bucket instead of dividing. -/
theorem win_rate_bounds_and_empty_guards (ts : List TradeStat) :
    0 ≤ win_rate ts ∧ win_rate ts ≤ 100 ∧
    (ts = [] → win_rate ts = 0) ∧
    (ts ≠ [] → win_rate ts =
      (winning_count ts : ℚ) / (ts.length : ℚ) * 100) ∧
    (high_strength_trades ts = [] → high_strength_win_rate ts = 0) ∧
    (medium_strength_trades ts = [] → medium_strength_win_rate ts = 0) ∧
    (low_strength_trades ts = [] → low_strength_win_rate ts = 0) ∧
    (four_confluence_trades ts = [] → four_confluence_win_rate ts = 0) ∧
    (three_confluence_trades ts = [] → three_confluence_win_rate ts = 0) ∧
    (two_confluence_trades ts = [] → two_confluence_win_rate ts = 0) := by
  have hrate : win_rate ts = bucket_win_rate ts := rfl
  refine ⟨hrate ▸ (bucket_win_rate_bounds ts).1,
    hrate ▸ (bucket_win_rate_bounds ts).2, ?_, ?_, ?_, ?_, ?_, ?_, ?_, ?_⟩
  · intro h
    rw [h]
    rfl
  · intro h
    unfold win_rate
    rw [if_pos (List.length_pos.mpr h)]
  · intro h
    unfold high_strength_win_rate
    rw [h]
    rfl
  · intro h
    unfold medium_strength_win_rate
    rw [h]
    rfl
  · intro h
    unfold low_strength_win_rate
    rw [h]
    rfl
  · intro h
    unfold four_confluence_win_rate
    rw [h]
    rfl
  · intro h
    unfold three_confluence_win_rate
    rw [h]
    rfl
  · intro h
    unfold two_confluence_win_rate
    rw [h]
    rfl

/-- C7 witness: the empty ledger gives win rate 0; one winner and one
loser give win rate 50; a ledger whose only trade has strength 55 has an
empty high-strength bucket and bucket win rate 0. -/
theorem win_rate_bounds_and_empty_guards_witness :
    win_rate [] = 0 ∧
    win_rate [{ pnl := 1, signal_strength := 80, confluence_score := 4 },
      { pnl := -1, signal_strength := 55, confluence_score := 2 }] = 50 ∧
    high_strength_win_rate
      [{ pnl := -1, signal_strength := 55, confluence_score := 2 }] = 0 := by
  refine ⟨(win_rate_bounds_and_empty_guards []).2.2.1 rfl, ?_,
    (win_rate_bounds_and_empty_guards
      [{ pnl := -1, signal_strength := 55, confluence_score := 2 }]).2.2.2.2.1
      (by decide)⟩
  rw [(win_rate_bounds_and_empty_guards
    [{ pnl := 1, signal_strength := 80, confluence_score := 4 },
      { pnl := -1, signal_strength := 55, confluence_score := 2 }]).2.2.2.1
    (by simp)]
  norm_num [winning_count, List.filter_cons, decide_eq_true_eq]

/-- Value of a run of zero digits. -/
lemma ofDigits_replicate_zero (k : ℕ) :
    Nat.ofDigits 10 (List.replicate k 0) = 0 := by
  induction k with
  | zero => rfl
  | succ m ih =>
      rw [List.replicate_succ, Nat.ofDigits_cons, ih]

/-- A number below the w-th power of ten has at most w decimal digits. -/
lemma digits_len_le_of_lt_pow {n w : ℕ} (h : n < 10 ^ w) :
    (Nat.digits 10 n).length ≤ w := by
  rcases Nat.eq_zero_or_pos n with rfl | hn
  · simp
  by_contra hlt
  push_neg at hlt
  have h1 : 10 ^ (Nat.digits 10 n).length ≤ 10 * n :=
    Nat.base_pow_length_digits_le 10 n (by norm_num) hn.ne'
  have h2 : 10 ^ (w + 1) ≤ 10 ^ (Nat.digits 10 n).length :=
    Nat.pow_le_pow_right (by norm_num) hlt
  rw [pow_succ] at h2
  omega

/-- Reading back a zero-padded rendering recovers the number. -/
lemma readNat_padDigits (w n : ℕ) : readNat (padDigits w n) = n := by
  unfold readNat padDigits
  rw [List.map_reverse, List.reverse_reverse, List.map_append,
    List.map_map, List.map_replicate]
  have h1 : (Nat.digits 10 n).map ((fun c => c - 48) ∘ fun d => d + 48) =
      Nat.digits 10 n := by
    have he : ((fun c => c - 48) ∘ fun d => d + 48) = (id : ℕ → ℕ) := by
      funext d
      simp
    rw [he, List.map_id]
  rw [h1, show (48 : ℕ) - 48 = 0 from rfl, Nat.ofDigits_append,
    Nat.ofDigits_digits, ofDigits_replicate_zero]
  simp

/-- Width of a zero-padded rendering within its bound. -/
lemma padDigits_length (w n : ℕ) (h : n < 10 ^ w) :
    (padDigits w n).length = w := by
  unfold padDigits
  rw [List.length_reverse, List.length_append, List.length_map,
    List.length_replicate]
  have := digits_len_le_of_lt_pow h
  omega

/-- Explicit form of a two-element list. -/
lemma list_eq_of_length_two {α : Type} {l : List α} (h : l.length = 2) :
    ∃ a b, l = [a, b] := by
  obtain ⟨a, t1, rfl⟩ := List.exists_of_length_succ l
    (show l.length = 1 + 1 from h)
  rw [List.length_cons] at h
  obtain ⟨b, t2, rfl⟩ := List.exists_of_length_succ t1
    (show t1.length = 0 + 1 by omega)
  rw [List.length_cons] at h
  have ht : t2 = [] := List.length_eq_zero.mp (by omega)
  subst ht
  exact ⟨a, b, rfl⟩

/-- Explicit form of a four-element list. -/
lemma list_eq_of_length_four {α : Type} {l : List α} (h : l.length = 4) :
    ∃ a b c d, l = [a, b, c, d] := by
  obtain ⟨a, t1, rfl⟩ := List.exists_of_length_succ l
    (show l.length = 3 + 1 from h)
  rw [List.length_cons] at h
  obtain ⟨b, t2, rfl⟩ := List.exists_of_length_succ t1
    (show t1.length = 2 + 1 by omega)
  rw [List.length_cons] at h
  obtain ⟨c, t3, rfl⟩ := List.exists_of_length_succ t2
    (show t2.length = 1 + 1 by omega)
  rw [List.length_cons] at h
  obtain ⟨d, t4, rfl⟩ := List.exists_of_length_succ t3
    (show t3.length = 0 + 1 by omega)
  rw [List.length_cons] at h
  have ht : t4 = [] := List.length_eq_zero.mp (by omega)
  subst ht
  exact ⟨a, b, c, d, rfl⟩

/-- Parsing inverts rendering for every in-bounds timestamp. -/
lemma fromisoformat_isoformat (d : DateTime) (h : d.Valid) :
    fromisoformat (isoformat d) = some d := by
  obtain ⟨hy, hmo, hda, hho, hmi, hse⟩ := h
  have e4 : (10 : ℕ) ^ 4 = 10000 := by norm_num
  have e2 : (10 : ℕ) ^ 2 = 100 := by norm_num
  obtain ⟨y1, y2, y3, y4, hY⟩ := list_eq_of_length_four
    (padDigits_length 4 d.year (by rw [e4]; exact hy))
  obtain ⟨m1, m2, hM⟩ := list_eq_of_length_two
    (padDigits_length 2 d.month (by rw [e2]; exact hmo))
  obtain ⟨d1, d2, hD⟩ := list_eq_of_length_two
    (padDigits_length 2 d.day (by rw [e2]; exact hda))
  obtain ⟨h1, h2, hH⟩ := list_eq_of_length_two
    (padDigits_length 2 d.hour (by rw [e2]; exact hho))
  obtain ⟨n1, n2, hN⟩ := list_eq_of_length_two
    (padDigits_length 2 d.minute (by rw [e2]; exact hmi))
  obtain ⟨c1, c2, hC⟩ := list_eq_of_length_two
    (padDigits_length 2 d.second (by rw [e2]; exact hse))
  unfold isoformat
  rw [hY, hM, hD, hH, hN, hC]
  simp only [List.cons_append, List.nil_append]
  rw [fromisoformat]
  rw [if_pos ⟨rfl, rfl, rfl, rfl, rfl⟩]
  rw [← hY, ← hM, ← hD, ← hH, ← hN, ← hC]
  rw [readNat_padDigits, readNat_padDigits, readNat_padDigits,
    readNat_padDigits, readNat_padDigits, readNat_padDigits]

/-- Round trip for a single trade dictionary. -/
lemma trade_from_to_dict (t : BacktestTradeRec) (h1 : t.entry_time.Valid)
    (h2 : ∀ x, t.exit_time = some x → x.Valid) :
    trade_from_dict (trade_to_dict t) = some t := by
  unfold trade_from_dict trade_to_dict
  dsimp only
  rw [fromisoformat_isoformat t.entry_time h1]
  cases hx : t.exit_time with
  | none =>
      dsimp only [Option.map_none']
      rw [← hx]
  | some x =>
      dsimp only [Option.map_some']
      rw [fromisoformat_isoformat x (h2 x hx)]
      dsimp only
      rw [← hx]

/-- Round trip for the trade list of the export. -/
lemma trades_round_trip (ts : List BacktestTradeRec)
    (h : ∀ t ∈ ts, trade_from_dict (trade_to_dict t) = some t) :
    (ts.map trade_to_dict).mapM trade_from_dict = some ts := by
  induction ts with
  | nil => rfl
  | cons t rest ih =>
      rw [List.map_cons, List.mapM_cons, h t (List.mem_cons_self t rest),
        ih (fun x hx => h x (List.mem_cons_of_mem t hx))]
      rfl

/-- Round trip for the results dictionary. -/
lemma results_round_trip (r : BacktestResultsRec)
    (h1 : r.start_date.Valid) (h2 : r.end_date.Valid) :
    results_from_dict (results_to_dict r) = some r := by
  unfold results_from_dict results_to_dict
  dsimp only
  rw [fromisoformat_isoformat r.start_date h1,
    fromisoformat_isoformat r.end_date h2]

/-- C8: saving results and trades and loading them back reconstructs
records with identical field values, with the timestamps rendered as
ISO-8601 strings and parsed back, for every in-bounds timestamp. -/
theorem save_load_round_trip (r : BacktestResultsRec)
    (ts : List BacktestTradeRec) (h1 : r.start_date.Valid)
    (h2 : r.end_date.Valid)
    (h3 : ∀ t ∈ ts, t.entry_time.Valid ∧
      ∀ x, t.exit_time = some x → x.Valid) :
    load_results (save_results r ts) = some (r, ts) := by
  unfold load_results save_results
  dsimp only
  rw [results_round_trip r h1 h2,
    trades_round_trip ts
      (fun t ht => trade_from_to_dict t (h3 t ht).1 (h3 t ht).2)]

/-- C8 witness: the round trip evaluated on a concrete results record and
a concrete one-trade ledger. -/
theorem save_load_round_trip_witness :
    load_results (save_results sampleResults [sampleTradeRec]) =
      some (sampleResults, [sampleTradeRec]) := by
  apply save_load_round_trip
  · norm_num [DateTime.Valid, sampleResults]
  · norm_num [DateTime.Valid, sampleResults]
  · intro t ht
    rw [List.mem_singleton] at ht
    subst ht
    constructor
    · norm_num [DateTime.Valid, sampleTradeRec]
    · intro x hx
      rw [show sampleTradeRec.exit_time =
        some ⟨2024, 1, 11, 12, 0, 0⟩ from rfl] at hx
      rw [Option.some_inj] at hx
      subst hx
      norm_num [DateTime.Valid]

end TradingLatino
